import Mathlib

/-!
Display Updater (`assets/js/script.js`)

A shallow embedding of the page script: the `DOMContentLoaded` handler that writes the
current year into the element `year`, defines `updateClock`, registers it with
`setInterval(updateClock, 1000)` and calls it once.

The host (document, wall clock, timer queue) is modelled by explicit state:

* the document is a tree of nodes: text nodes, and elements with an `id` and child nodes.
  `getElementById` finds the first element in tree order; the getter `textContent` of an
  element is the concatenated text of its descendants; the setter `textContent` replaces
  all children of the element by one text node (by none for the empty string), so the
  elements nested in the target leave the document and the text of every element that
  contains the target changes;
* a `JSDate` is the value of one `new Date()`: it carries what the script observes of it,
  the result of `getFullYear()` and of `toLocaleTimeString()` (both decided by the host's
  time zone and locale);
* the `World` holds the document, the repeating timers registered so far, and a log of the
  calls the script made (`setInterval`, invocations of `updateClock`).

Every `new Date()` of the script is an argument of the embedded function that executes it.
-/

namespace DisplayUpdater

/-! ## Host model -/

/-- A sequence of sibling nodes of the page, in document order: empty, or a text node
followed by its later siblings, or an element (its `id` attribute, `""` when it has none, and
its child nodes) followed by its later siblings. -/
inductive Nodes where
  | nil
  | text (data : String) (next : Nodes)
  | element (id : String) (children : Nodes) (next : Nodes)
deriving DecidableEq, Repr

/-- The page state: the top-level nodes of the document, each with its subtree. -/
abbrev Document := Nodes

/-- One step of the way from a node sequence to one of its nodes: into the children of its
first node, or on to the later siblings of its first node. -/
inductive Step where
  | down
  | next
deriving DecidableEq, Repr

/-- A reference to a node: the way to it from the first top-level node of the document. The
empty way is the first node itself. -/
abbrev Ref := List Step

/-- The value of one `new Date()`, as far as the script observes it. `getFullYear` is the
local full year (an integer, between -271821 and 275760 for a valid ECMAScript date) and
`toLocaleTimeString` the host's locale time-of-day formatting of the same instant. -/
structure JSDate where
  getFullYear : Int
  toLocaleTimeString : String
deriving DecidableEq, Repr

/-- Errors a statement of the script can raise (the message is engine-specific and not
modelled). -/
inductive JSError where
  | typeError
deriving DecidableEq, Repr

/-- The first element in tree order (an element comes before its descendants, and these
before its later siblings) whose id is `id`. -/
def firstWithId : Nodes → String → Option Ref
  | .nil, _ => none
  | .text _ rest, id => (firstWithId rest id).map (Step.next :: ·)
  | .element i c rest, id =>
    if i = id then some []
    else
      match firstWithId c id with
      | some r => some (Step.down :: r)
      | none => (firstWithId rest id).map (Step.next :: ·)

/-- The call `document.getElementById(id)`: a reference to the first element in tree order
whose id is `id`, or `none` for JavaScript `null`. The empty id matches no element. -/
def getElementById (doc : Document) (id : String) : Option Ref :=
  if id = "" then none else firstWithId doc id

/-- Truthiness of the result of `getElementById`: an element is truthy, `null` is falsy. -/
def truthy (ref : Option Ref) : Bool := ref.isSome

/-- The getter `textContent` of a node sequence: the data of all its text nodes, descendants
included, concatenated in tree order. The text of an element is that of its children. -/
def textContent : Nodes → String
  | .nil => ""
  | .text d rest => d ++ textContent rest
  | .element _ c rest => textContent c ++ textContent rest

/-- The children an element has after its `textContent` was set to `value`: a single text
node, or no node at all when `value` is empty. -/
def textNodes (value : String) : Nodes :=
  if value = "" then .nil else .text value .nil

/-- Replace all children of the element at `ref` by the nodes `new`. The element keeps its
id and its place, its former descendants are gone. A reference that leads to no element
changes nothing. -/
def replaceChildren : Ref → Nodes → Nodes → Nodes
  | [], new, .element i _ rest => .element i new rest
  | .down :: r, new, .element i c rest => .element i (replaceChildren r new c) rest
  | .next :: r, new, .element i c rest => .element i c (replaceChildren r new rest)
  | .next :: r, new, .text d rest => .text d (replaceChildren r new rest)
  | _, _, doc => doc

/-- The assignment `ref.textContent = value`. On `null` it throws a `TypeError`. -/
def setTextContent (ref : Option Ref) (value : String) (doc : Document) :
    Except JSError Document :=
  match ref with
  | none => .error .typeError
  | some r => .ok (replaceChildren r (textNodes value) doc)

/-- The children of the element at `ref`, if `ref` leads to an element. -/
def childrenAt : Ref → Nodes → Option Nodes
  | [], .element _ c _ => some c
  | .down :: r, .element _ c _ => childrenAt r c
  | .next :: r, .element _ _ rest => childrenAt r rest
  | .next :: r, .text _ rest => childrenAt r rest
  | _, _ => none

/-- The id of the element at `ref`, if `ref` leads to an element. -/
def idAt : Ref → Nodes → Option String
  | [], .element i _ _ => some i
  | .down :: r, .element _ c _ => idAt r c
  | .next :: r, .element _ _ rest => idAt r rest
  | .next :: r, .text _ rest => idAt r rest
  | _, _ => none

/-- The getter `textContent` of the element at `ref`. -/
def textContentAt (ref : Ref) (doc : Document) : Option String :=
  (childrenAt ref doc).map textContent

/-- The text of the element `getElementById` finds for the given id, if it finds one. -/
def textOf (doc : Document) (id : String) : Option String :=
  match getElementById doc id with
  | none => none
  | some r => textContentAt r doc

/-- Whether the node at `p` lies inside the element at `q`, as a descendant of it. -/
def inside : Ref → Ref → Bool
  | .down :: _, [] => true
  | s :: p, t :: q => s == t && inside p q
  | _, _ => false

/-- Whether the element found for the id `inner` lies inside the element found for the id
`outer`. False when one of the two does not exist. -/
def nestedIn (doc : Document) (inner outer : String) : Bool :=
  match getElementById doc inner, getElementById doc outer with
  | some p, some q => inside p q
  | _, _ => false

/-- Whether two documents are the same except for the children of the element at `ref`:
same nodes, same ids and same text everywhere else, an element at `ref` in both. -/
def agreeOutside : Ref → Nodes → Nodes → Bool
  | [], .element i _ r1, .element j _ r2 => decide (i = j) && decide (r1 = r2)
  | .down :: r, .element i c1 r1, .element j c2 r2 =>
    decide (i = j) && decide (r1 = r2) && agreeOutside r c1 c2
  | .next :: r, .element i c1 r1, .element j c2 r2 =>
    decide (i = j) && decide (c1 = c2) && agreeOutside r r1 r2
  | .next :: r, .text d1 r1, .text d2 r2 => decide (d1 = d2) && agreeOutside r r1 r2
  | _, _, _ => false

/-- The string a Number becomes when assigned to `textContent`, for an integer value (the
decimal digits, with a leading minus sign for a negative one). -/
def numberToString (n : Int) : String := toString n

/-- The functions of the script that are handed to the host or called. -/
inductive Callback where
  | updateClock
deriving DecidableEq, Repr

/-- A repeating timer registered with `setInterval`: its callback and its period in ms. -/
structure Interval where
  callback : Callback
  delay : Nat
deriving DecidableEq, Repr

/-- Who invoked a function: the script itself, or the host because a timer fired. -/
inductive Origin where
  | direct
  | timer
deriving DecidableEq, Repr

/-- What the script did, in order. -/
inductive Event where
  | setInterval (callback : Callback) (delay : Nat)
  | call (callback : Callback) (origin : Origin)
deriving DecidableEq, Repr

/-- The state of the page as the script sees and changes it. -/
structure World where
  doc : Document
  intervals : List Interval
  log : List Event
deriving DecidableEq, Repr

/-- The page right after loading, before any script ran: no timers, nothing logged. -/
def pageLoad (doc : Document) : World := ⟨doc, [], []⟩

/-- The call `setInterval(callback, delay)`: the host adds a repeating timer. The script
discards the returned timer id. -/
def setInterval (callback : Callback) (delay : Nat) (w : World) : World :=
  { w with
    intervals := w.intervals ++ [⟨callback, delay⟩]
    log := w.log ++ [.setInterval callback delay] }

/-! ## The script -/

/-- The function `updateClock` (lines 7-13). `now` is the value of `new Date()` on line 10,
read only when the element exists. -/
def updateClock (now : JSDate) (doc : Document) : Except JSError Document :=
  let clockElement := getElementById doc "clock-display"
  if truthy clockElement then
    setTextContent clockElement ("Campus Time: " ++ now.toLocaleTimeString) doc
  else
    .ok doc

/-- An invocation of a function of the script, by the script or by a timer. -/
def invoke (callback : Callback) (origin : Origin) (now : JSDate) (w : World) :
    Except JSError World :=
  match callback with
  | .updateClock => do
    let doc ← updateClock now w.doc
    pure { w with doc := doc, log := w.log ++ [.call .updateClock origin] }

/-- Lines 3-4 of the handler: the year step. `now` is the value of `new Date()` on line 4,
read only when the element exists. -/
def yearStep (now : JSDate) (w : World) : Except JSError World :=
  let yearSpan := getElementById w.doc "year"
  if truthy yearSpan then do
    let doc ← setTextContent yearSpan (numberToString now.getFullYear) w.doc
    pure { w with doc := doc }
  else
    pure w

/-- Lines 15-16 of the handler: `setInterval(updateClock, 1000); updateClock();`. -/
def clockSchedulingStep (now : JSDate) (w : World) : Except JSError World :=
  invoke .updateClock .direct now (setInterval .updateClock 1000 w)

/-- The `DOMContentLoaded` handler (lines 1-17). `yearNow` is the clock reading of line 4 and
`clockNow` the one of the immediate `updateClock()` call. -/
def onDOMContentLoaded (yearNow clockNow : JSDate) (w : World) : Except JSError World := do
  let w ← yearStep yearNow w
  clockSchedulingStep clockNow w

/-- One timer period elapses: the host runs the callback of every registered repeating timer
once, in registration order, each seeing the clock reading `now`. Repeating timers stay
registered. -/
def tick (now : JSDate) (w : World) : Except JSError World :=
  w.intervals.foldlM (fun acc t => invoke t.callback .timer now acc) w

/-- A run of timer ticks, one per clock reading in the list. -/
def runTicks : List JSDate → World → Except JSError World
  | [], w => pure w
  | now :: rest, w => do
    let w ← tick now w
    runTicks rest w

/-- Startup followed by a run of ticks. -/
def runPage (yearNow clockNow : JSDate) (ticks : List JSDate) (doc : Document) :
    Except JSError World := do
  let w ← onDOMContentLoaded yearNow clockNow (pageLoad doc)
  runTicks ticks w

/-- The timer the handler registers. -/
def clockInterval : Interval := ⟨.updateClock, 1000⟩

/-- A string of exactly four decimal digits. -/
def isFourDigits (s : String) : Bool :=
  s.length == 4 && s.data.all Char.isDigit

/-! ## Closed forms of the results, used in the proofs -/

/-- The document after the text of the first element with id `id` was set to `value`; the
document itself when there is no such element. -/
def writeFirst (id value : String) (doc : Document) : Document :=
  match firstWithId doc id with
  | none => doc
  | some r => replaceChildren r (textNodes value) doc

/-- The text of the first element with id `id`. -/
def textOfFirst (doc : Document) (id : String) : Option String :=
  match firstWithId doc id with
  | none => none
  | some r => textContentAt r doc

/-- The document `updateClock` returns (it never throws, see `updateClock_ok`). -/
def updateClockDoc (now : JSDate) (doc : Document) : Document :=
  match getElementById doc "clock-display" with
  | none => doc
  | some r => replaceChildren r (textNodes ("Campus Time: " ++ now.toLocaleTimeString)) doc

/-- The document the year step returns (it never throws, see `yearStep_ok`). -/
def yearStepDoc (now : JSDate) (doc : Document) : Document :=
  match getElementById doc "year" with
  | none => doc
  | some r => replaceChildren r (textNodes (numberToString now.getFullYear)) doc

/-- The document after a run of ticks of the single clock timer. -/
def ticksDoc : List JSDate → Document → Document
  | [], doc => doc
  | now :: rest, doc => ticksDoc rest (updateClockDoc now doc)

/-- Whether an event of the log is a timer registration. -/
def isSetInterval : Event → Bool
  | .setInterval _ _ => true
  | .call _ _ => false

/-! ## Facts about the host model -/

theorem firstWithId_textNodes (v a : String) : firstWithId (textNodes v) a = none := by
  unfold textNodes
  split <;> rfl

theorem textContent_textNodes (v : String) : textContent (textNodes v) = v := by
  unfold textNodes
  split
  · next h => rw [h]; rfl
  · simp [textContent]

theorem writeFirst_nil (a v : String) : writeFirst a v .nil = .nil := rfl

theorem writeFirst_text (a v d : String) (rest : Nodes) :
    writeFirst a v (.text d rest) = .text d (writeFirst a v rest) := by
  unfold writeFirst
  simp only [firstWithId]
  cases firstWithId rest a <;> rfl

theorem writeFirst_self (a v : String) (c rest : Nodes) :
    writeFirst a v (.element a c rest) = .element a (textNodes v) rest := by
  simp [writeFirst, firstWithId, replaceChildren]

theorem writeFirst_child (a v i : String) (c rest : Nodes) (r : Ref) (hi : i ≠ a)
    (hc : firstWithId c a = some r) :
    writeFirst a v (.element i c rest) = .element i (writeFirst a v c) rest := by
  simp [writeFirst, firstWithId, replaceChildren, hi, hc]

theorem writeFirst_next (a v i : String) (c rest : Nodes) (hi : i ≠ a)
    (hc : firstWithId c a = none) :
    writeFirst a v (.element i c rest) = .element i c (writeFirst a v rest) := by
  unfold writeFirst
  simp only [firstWithId, hi, hc, if_false]
  cases firstWithId rest a <;> rfl

theorem textOfFirst_text (a d : String) (rest : Nodes) :
    textOfFirst (.text d rest) a = textOfFirst rest a := by
  unfold textOfFirst
  simp only [firstWithId]
  cases firstWithId rest a <;> rfl

theorem textOfFirst_self (a : String) (c rest : Nodes) :
    textOfFirst (.element a c rest) a = some (textContent c) := by
  simp [textOfFirst, firstWithId, textContentAt, childrenAt]

theorem textOfFirst_child (a i : String) (c rest : Nodes) (r : Ref) (hi : i ≠ a)
    (hc : firstWithId c a = some r) :
    textOfFirst (.element i c rest) a = textOfFirst c a := by
  simp [textOfFirst, firstWithId, textContentAt, childrenAt, hi, hc]

theorem textOfFirst_next (a i : String) (c rest : Nodes) (hi : i ≠ a)
    (hc : firstWithId c a = none) :
    textOfFirst (.element i c rest) a = textOfFirst rest a := by
  unfold textOfFirst
  simp only [firstWithId, hi, hc, if_false]
  cases firstWithId rest a <;> rfl

theorem firstWithId_writeFirst_self (a v : String) (d : Nodes) :
    firstWithId (writeFirst a v d) a = firstWithId d a := by
  induction d with
  | nil => rfl
  | text t rest ih => rw [writeFirst_text]; simp only [firstWithId, ih]
  | element i c rest ihc ihr =>
    by_cases hi : i = a
    · subst hi
      rw [writeFirst_self]
      simp [firstWithId]
    · cases hc : firstWithId c a with
      | none =>
        rw [writeFirst_next a v i c rest hi hc]
        simp only [firstWithId, hi, hc, if_false, ihr]
      | some r =>
        rw [writeFirst_child a v i c rest r hi hc]
        simp only [firstWithId, hi, if_false, ihc, hc]

theorem firstWithId_writeFirst_none (a b v : String) (d : Nodes)
    (h : firstWithId d b = none) : firstWithId (writeFirst a v d) b = none := by
  induction d with
  | nil => rfl
  | text t rest ih =>
    rw [writeFirst_text]
    simp only [firstWithId, Option.map_eq_none'] at h ⊢
    exact ih h
  | element i c rest ihc ihr =>
    have hib : i ≠ b := by
      intro e
      simp [firstWithId, e] at h
    have hcb : firstWithId c b = none := by
      cases hc : firstWithId c b with
      | none => rfl
      | some r => simp [firstWithId, hib, hc] at h
    have hrb : firstWithId rest b = none := by
      simpa [firstWithId, hib, hcb] using h
    by_cases hi : i = a
    · subst hi
      rw [writeFirst_self]
      simp [firstWithId, hib, firstWithId_textNodes, hrb]
    · cases hc : firstWithId c a with
      | none =>
        rw [writeFirst_next a v i c rest hi hc]
        simp [firstWithId, hib, hcb, ihr hrb]
      | some r =>
        rw [writeFirst_child a v i c rest r hi hc]
        simp [firstWithId, hib, ihc hcb, hrb]

theorem textOfFirst_isSome (a : String) (d : Nodes) :
    (textOfFirst d a).isSome = (firstWithId d a).isSome := by
  induction d with
  | nil => rfl
  | text t rest ih =>
    rw [textOfFirst_text, ih]
    simp only [firstWithId]
    cases firstWithId rest a <;> rfl
  | element i c rest ihc ihr =>
    by_cases hi : i = a
    · subst hi
      rw [textOfFirst_self]
      simp [firstWithId]
    · cases hc : firstWithId c a with
      | none =>
        rw [textOfFirst_next a i c rest hi hc, ihr]
        simp only [firstWithId, hi, hc, if_false]
        cases firstWithId rest a <;> rfl
      | some r =>
        rw [textOfFirst_child a i c rest r hi hc, ihc, hc]
        simp [firstWithId, hi, hc]

theorem textOfFirst_eq_none (a : String) (d : Nodes) (h : firstWithId d a = none) :
    textOfFirst d a = none := by
  simp [textOfFirst, h]

theorem firstWithId_of_textOfFirst (a s : String) (d : Nodes) (h : textOfFirst d a = some s) :
    ∃ r, firstWithId d a = some r := by
  have := textOfFirst_isSome a d
  rw [h] at this
  cases hf : firstWithId d a with
  | none => rw [hf] at this; cases this
  | some r => exact ⟨r, rfl⟩

theorem textOfFirst_writeFirst_self (a v : String) (d : Nodes) (r : Ref)
    (h : firstWithId d a = some r) : textOfFirst (writeFirst a v d) a = some v := by
  induction d generalizing r with
  | nil => cases h
  | text t rest ih =>
    rw [writeFirst_text, textOfFirst_text]
    cases hr : firstWithId rest a with
    | none => simp [firstWithId, hr] at h
    | some r1 => exact ih r1 hr
  | element i c rest ihc ihr =>
    by_cases hi : i = a
    · subst hi
      rw [writeFirst_self, textOfFirst_self, textContent_textNodes]
    · cases hc : firstWithId c a with
      | none =>
        rw [writeFirst_next a v i c rest hi hc, textOfFirst_next a i c _ hi hc]
        cases hr : firstWithId rest a with
        | none => simp [firstWithId, hi, hc, hr] at h
        | some r1 => exact ihr r1 hr
      | some r1 =>
        rw [writeFirst_child a v i c rest r1 hi hc]
        have hc2 : firstWithId (writeFirst a v c) a = some r1 := by
          rw [firstWithId_writeFirst_self, hc]
        rw [textOfFirst_child a i _ rest r1 hi hc2]
        exact ihc r1 hc

theorem writeFirst_writeFirst (a u v : String) (d : Nodes) :
    writeFirst a v (writeFirst a u d) = writeFirst a v d := by
  induction d with
  | nil => rfl
  | text t rest ih => simp only [writeFirst_text, ih]
  | element i c rest ihc ihr =>
    by_cases hi : i = a
    · subst hi
      simp only [writeFirst_self]
    · cases hc : firstWithId c a with
      | none =>
        rw [writeFirst_next a u i c rest hi hc, writeFirst_next a v i c _ hi hc,
          writeFirst_next a v i c rest hi hc, ihr]
      | some r1 =>
        have hc2 : firstWithId (writeFirst a u c) a = some r1 := by
          rw [firstWithId_writeFirst_self, hc]
        rw [writeFirst_child a u i c rest r1 hi hc, writeFirst_child a v i _ rest r1 hi hc2,
          writeFirst_child a v i c rest r1 hi hc, ihc]

theorem inside_next_next (p q : Ref) : inside (Step.next :: p) (Step.next :: q) = inside p q := by
  simp [inside]

theorem inside_down_down (p q : Ref) : inside (Step.down :: p) (Step.down :: q) = inside p q := by
  simp [inside]

theorem inside_down_nil (p : Ref) : inside (Step.down :: p) [] = true := rfl

/-- Writing `a` and then `b`: the text of `a` is the one written, when the first `a` element
is not inside the first `b` element. -/
theorem textOfFirst_write_write (a b v1 v2 : String) (hab : a ≠ b) (d : Nodes) (p : Ref)
    (hp : firstWithId d a = some p)
    (hn : ∀ q, firstWithId d b = some q → inside p q = false) :
    textOfFirst (writeFirst b v2 (writeFirst a v1 d)) a = some v1 := by
  induction d generalizing p with
  | nil => cases hp
  | text t rest ih =>
    simp only [writeFirst_text, textOfFirst_text]
    cases hr : firstWithId rest a with
    | none => simp [firstWithId, hr] at hp
    | some p1 =>
      have hp1 : p = Step.next :: p1 := by simpa [firstWithId, hr] using hp.symm
      apply ih p1 hr
      intro q hq
      have := hn (Step.next :: q) (by simp [firstWithId, hq])
      rw [hp1, inside_next_next] at this
      exact this
  | element i c rest ihc ihr =>
    by_cases hia : i = a
    · subst hia
      rw [writeFirst_self,
        writeFirst_next b v2 i _ _ hab (firstWithId_textNodes v1 b),
        textOfFirst_self, textContent_textNodes]
    · by_cases hib : i = b
      · subst hib
        have hq0 : firstWithId (Nodes.element i c rest) i = some [] := by simp [firstWithId]
        have hin := hn [] hq0
        cases hc : firstWithId c a with
        | some p1 =>
          have hp1 : p = Step.down :: p1 := by simpa [firstWithId, hia, hc] using hp.symm
          rw [hp1, inside_down_nil] at hin
          cases hin
        | none =>
          cases hr : firstWithId rest a with
          | none => simp [firstWithId, hia, hc, hr] at hp
          | some p1 =>
            rw [writeFirst_next a v1 i c rest hia hc, writeFirst_self,
              textOfFirst_next a i _ _ hia (firstWithId_textNodes v2 a)]
            exact textOfFirst_writeFirst_self a v1 rest p1 hr
      · cases hc : firstWithId c a with
        | some p1 =>
          have hp1 : p = Step.down :: p1 := by simpa [firstWithId, hia, hc] using hp.symm
          have hc1 : firstWithId (writeFirst a v1 c) a = some p1 := by
            rw [firstWithId_writeFirst_self, hc]
          rw [writeFirst_child a v1 i c rest p1 hia hc]
          cases hcb : firstWithId (writeFirst a v1 c) b with
          | none =>
            rw [writeFirst_next b v2 i _ rest hib hcb, textOfFirst_child a i _ _ p1 hia hc1]
            exact textOfFirst_writeFirst_self a v1 c p1 hc
          | some q1 =>
            rw [writeFirst_child b v2 i _ rest q1 hib hcb]
            have hih : textOfFirst (writeFirst b v2 (writeFirst a v1 c)) a = some v1 := by
              apply ihc p1 hc
              intro q hq
              have := hn (Step.down :: q) (by simp [firstWithId, hib, hq])
              rw [hp1, inside_down_down] at this
              exact this
            obtain ⟨r, hr⟩ := firstWithId_of_textOfFirst a v1 _ hih
            rw [textOfFirst_child a i _ rest r hia hr]
            exact hih
        | none =>
          cases hr : firstWithId rest a with
          | none => simp [firstWithId, hia, hc, hr] at hp
          | some p1 =>
            have hp1 : p = Step.next :: p1 := by simpa [firstWithId, hia, hc, hr] using hp.symm
            rw [writeFirst_next a v1 i c rest hia hc]
            cases hcb : firstWithId c b with
            | some q1 =>
              rw [writeFirst_child b v2 i c _ q1 hib hcb,
                textOfFirst_next a i _ _ hia (firstWithId_writeFirst_none b a v2 c hc)]
              exact textOfFirst_writeFirst_self a v1 rest p1 hr
            | none =>
              rw [writeFirst_next b v2 i c _ hib hcb, textOfFirst_next a i c _ hia hc]
              apply ihr p1 hr
              intro q hq
              have := hn (Step.next :: q) (by simp [firstWithId, hib, hcb, hq])
              rw [hp1, inside_next_next] at this
              exact this

/-- Writing `a` leaves the first `b` element in place, when it is not inside the first `a`
element. -/
theorem firstWithId_writeFirst_other (a b v : String) (hab : a ≠ b) (d : Nodes) (q : Ref)
    (hq : firstWithId d b = some q)
    (hn : ∀ p, firstWithId d a = some p → inside q p = false) :
    firstWithId (writeFirst a v d) b = some q := by
  induction d generalizing q with
  | nil => cases hq
  | text t rest ih =>
    rw [writeFirst_text]
    cases hr : firstWithId rest b with
    | none => simp [firstWithId, hr] at hq
    | some q1 =>
      have hq1 : q = Step.next :: q1 := by simpa [firstWithId, hr] using hq.symm
      have := ih q1 hr (by
        intro p hp
        have := hn (Step.next :: p) (by simp [firstWithId, hp])
        rw [hq1, inside_next_next] at this
        exact this)
      simp [firstWithId, this, hq1]
  | element i c rest ihc ihr =>
    by_cases hib : i = b
    · subst hib
      have hq0 : q = [] := by simpa [firstWithId] using hq.symm
      have hia : i ≠ a := fun e => hab e.symm
      cases hc : firstWithId c a with
      | none =>
        rw [writeFirst_next a v i c rest hia hc]
        simp [firstWithId, hq0]
      | some p1 =>
        rw [writeFirst_child a v i c rest p1 hia hc]
        simp [firstWithId, hq0]
    · by_cases hia : i = a
      · subst hia
        have hp0 : firstWithId (Nodes.element i c rest) i = some [] := by simp [firstWithId]
        have hin := hn [] hp0
        cases hc : firstWithId c b with
        | some q1 =>
          have hq1 : q = Step.down :: q1 := by simpa [firstWithId, hib, hc] using hq.symm
          rw [hq1, inside_down_nil] at hin
          cases hin
        | none =>
          rw [writeFirst_self]
          have hq2 : firstWithId (Nodes.element i c rest) b =
              (firstWithId rest b).map (Step.next :: ·) := by
            simp [firstWithId, hib, hc]
          rw [hq2] at hq
          simp [firstWithId, hib, firstWithId_textNodes, hq]
      · cases hcb : firstWithId c b with
        | some q1 =>
          have hq1 : q = Step.down :: q1 := by simpa [firstWithId, hib, hcb] using hq.symm
          cases hc : firstWithId c a with
          | none =>
            rw [writeFirst_next a v i c rest hia hc]
            simp [firstWithId, hib, hcb, hq1]
          | some p1 =>
            rw [writeFirst_child a v i c rest p1 hia hc]
            have := ihc q1 hcb (by
              intro p hp
              have := hn (Step.down :: p) (by simp [firstWithId, hia, hp])
              rw [hq1, inside_down_down] at this
              exact this)
            simp [firstWithId, hib, this, hq1]
        | none =>
          cases hr : firstWithId rest b with
          | none => simp [firstWithId, hib, hcb, hr] at hq
          | some q1 =>
            have hq1 : q = Step.next :: q1 := by
              simpa [firstWithId, hib, hcb, hr] using hq.symm
            cases hc : firstWithId c a with
            | some p1 =>
              rw [writeFirst_child a v i c rest p1 hia hc]
              simp [firstWithId, hib, firstWithId_writeFirst_none a b v c hcb, hr, hq1]
            | none =>
              rw [writeFirst_next a v i c rest hia hc]
              have := ihr q1 hr (by
                intro p hp
                have := hn (Step.next :: p) (by simp [firstWithId, hia, hc, hp])
                rw [hq1, inside_next_next] at this
                exact this)
              simp [firstWithId, hib, hcb, this, hq1]

/-- After `a` was written, the text of `a` after a write of `b` does not depend on the value
written to `b`. -/
theorem textOfFirst_write_indep (a b v1 v u : String) (hab : a ≠ b) (d : Nodes) :
    textOfFirst (writeFirst b v (writeFirst a v1 d)) a =
      textOfFirst (writeFirst b u (writeFirst a v1 d)) a := by
  induction d with
  | nil => rfl
  | text t rest ih => simp only [writeFirst_text, textOfFirst_text, ih]
  | element i c rest ihc ihr =>
    by_cases hia : i = a
    · subst hia
      rw [writeFirst_self,
        writeFirst_next b v i _ _ hab (firstWithId_textNodes v1 b),
        writeFirst_next b u i _ _ hab (firstWithId_textNodes v1 b),
        textOfFirst_self, textOfFirst_self]
    · by_cases hib : i = b
      · subst hib
        cases hc : firstWithId c a with
        | some p1 =>
          rw [writeFirst_child a v1 i c rest p1 hia hc, writeFirst_self, writeFirst_self,
            textOfFirst_next a i _ _ hia (firstWithId_textNodes v a),
            textOfFirst_next a i _ _ hia (firstWithId_textNodes u a)]
        | none =>
          rw [writeFirst_next a v1 i c rest hia hc, writeFirst_self, writeFirst_self,
            textOfFirst_next a i _ _ hia (firstWithId_textNodes v a),
            textOfFirst_next a i _ _ hia (firstWithId_textNodes u a)]
      · cases hc : firstWithId c a with
        | some p1 =>
          have hc1 : firstWithId (writeFirst a v1 c) a = some p1 := by
            rw [firstWithId_writeFirst_self, hc]
          rw [writeFirst_child a v1 i c rest p1 hia hc]
          cases hcb : firstWithId (writeFirst a v1 c) b with
          | none =>
            rw [writeFirst_next b v i _ rest hib hcb, writeFirst_next b u i _ rest hib hcb,
              textOfFirst_child a i _ _ p1 hia hc1, textOfFirst_child a i _ _ p1 hia hc1]
          | some q1 =>
            rw [writeFirst_child b v i _ rest q1 hib hcb,
              writeFirst_child b u i _ rest q1 hib hcb]
            cases hv : firstWithId (writeFirst b v (writeFirst a v1 c)) a with
            | none =>
              have hu : firstWithId (writeFirst b u (writeFirst a v1 c)) a = none := by
                have h1 := textOfFirst_isSome a (writeFirst b u (writeFirst a v1 c))
                rw [← ihc, textOfFirst_eq_none a _ hv] at h1
                cases hf : firstWithId (writeFirst b u (writeFirst a v1 c)) a with
                | none => rfl
                | some r => rw [hf] at h1; cases h1
              rw [textOfFirst_next a i _ rest hia hv, textOfFirst_next a i _ rest hia hu]
            | some r =>
              have h1 := textOfFirst_isSome a (writeFirst b u (writeFirst a v1 c))
              have h2 := textOfFirst_isSome a (writeFirst b v (writeFirst a v1 c))
              rw [← ihc, h2, hv] at h1
              cases hu : firstWithId (writeFirst b u (writeFirst a v1 c)) a with
              | none => rw [hu] at h1; cases h1
              | some r2 =>
                rw [textOfFirst_child a i _ rest r hia hv,
                  textOfFirst_child a i _ rest r2 hia hu, ihc]
        | none =>
          rw [writeFirst_next a v1 i c rest hia hc]
          cases hcb : firstWithId c b with
          | some q1 =>
            rw [writeFirst_child b v i c _ q1 hib hcb, writeFirst_child b u i c _ q1 hib hcb,
              textOfFirst_next a i _ _ hia (firstWithId_writeFirst_none b a v c hc),
              textOfFirst_next a i _ _ hia (firstWithId_writeFirst_none b a u c hc)]
          | none =>
            rw [writeFirst_next b v i c _ hib hcb, writeFirst_next b u i c _ hib hcb,
              textOfFirst_next a i c _ hia hc, textOfFirst_next a i c _ hia hc, ihr]

theorem firstWithId_replaceChildren_self (a : String) (new d : Nodes) (q : Ref)
    (h : firstWithId d a = some q) : firstWithId (replaceChildren q new d) a = some q := by
  induction d generalizing q with
  | nil => cases h
  | text t rest ih =>
    cases hr : firstWithId rest a with
    | none => simp [firstWithId, hr] at h
    | some q1 =>
      have hq1 : q = Step.next :: q1 := by simpa [firstWithId, hr] using h.symm
      subst hq1
      simp [replaceChildren, firstWithId, ih q1 hr]
  | element i c rest ihc ihr =>
    by_cases hi : i = a
    · subst hi
      have hq0 : q = [] := by simpa [firstWithId] using h.symm
      subst hq0
      simp [replaceChildren, firstWithId]
    · cases hc : firstWithId c a with
      | some q1 =>
        have hq1 : q = Step.down :: q1 := by simpa [firstWithId, hi, hc] using h.symm
        subst hq1
        simp [replaceChildren, firstWithId, hi, ihc q1 hc]
      | none =>
        cases hr : firstWithId rest a with
        | none => simp [firstWithId, hi, hc, hr] at h
        | some q1 =>
          have hq1 : q = Step.next :: q1 := by simpa [firstWithId, hi, hc, hr] using h.symm
          subst hq1
          simp [replaceChildren, firstWithId, hi, hc, ihr q1 hr]

theorem replaceChildren_replaceChildren (q : Ref) (x y d : Nodes) :
    replaceChildren q x (replaceChildren q y d) = replaceChildren q x d := by
  induction d generalizing q with
  | nil =>
    cases q with
    | nil => rfl
    | cons s q1 => cases s <;> rfl
  | text t rest ih =>
    cases q with
    | nil => rfl
    | cons s q1 => cases s <;> simp [replaceChildren, ih]
  | element i c rest ihc ihr =>
    cases q with
    | nil => rfl
    | cons s q1 => cases s <;> simp [replaceChildren, ihc, ihr]

/-- A write below `q` leaves alone every node that is not the element at `q`, does not
contain it and is not contained in it. -/
theorem frame_replaceChildren (q r : Ref) (new d : Nodes) (hne : r ≠ q)
    (h1 : inside r q = false) (h2 : inside q r = false) :
    idAt r (replaceChildren q new d) = idAt r d ∧
      childrenAt r (replaceChildren q new d) = childrenAt r d := by
  induction d generalizing q r with
  | nil => cases q with
    | nil => exact ⟨rfl, rfl⟩
    | cons s q1 => cases s <;> exact ⟨rfl, rfl⟩
  | text t rest ih =>
    cases q with
    | nil => exact ⟨rfl, rfl⟩
    | cons s q1 =>
      cases s with
      | down => exact ⟨rfl, rfl⟩
      | next =>
        cases r with
        | nil => exact ⟨rfl, rfl⟩
        | cons s2 r1 =>
          cases s2 with
          | down => exact ⟨rfl, rfl⟩
          | next =>
            have hne1 : r1 ≠ q1 := fun e => hne (by rw [e])
            rw [inside_next_next] at h1 h2
            simpa [replaceChildren, idAt, childrenAt] using ih q1 r1 hne1 h1 h2
  | element i c rest ihc ihr =>
    cases q with
    | nil =>
      cases r with
      | nil => exact absurd rfl hne
      | cons s2 r1 =>
        cases s2 with
        | down => rw [inside_down_nil] at h1; cases h1
        | next => exact ⟨rfl, rfl⟩
    | cons s q1 =>
      cases s with
      | down =>
        cases r with
        | nil => rw [inside_down_nil] at h2; cases h2
        | cons s2 r1 =>
          cases s2 with
          | down =>
            have hne1 : r1 ≠ q1 := fun e => hne (by rw [e])
            rw [inside_down_down] at h1 h2
            simpa [replaceChildren, idAt, childrenAt] using ihc q1 r1 hne1 h1 h2
          | next => exact ⟨rfl, rfl⟩
      | next =>
        cases r with
        | nil => exact ⟨rfl, rfl⟩
        | cons s2 r1 =>
          cases s2 with
          | down => exact ⟨rfl, rfl⟩
          | next =>
            have hne1 : r1 ≠ q1 := fun e => hne (by rw [e])
            rw [inside_next_next] at h1 h2
            simpa [replaceChildren, idAt, childrenAt] using ihr q1 r1 hne1 h1 h2

theorem replaceChildren_agreeOutside (q : Ref) (new d1 d2 : Nodes)
    (h : agreeOutside q d1 d2 = true) :
    replaceChildren q new d1 = replaceChildren q new d2 := by
  induction d1 generalizing q d2 with
  | nil => cases q with
    | nil => simp [agreeOutside] at h
    | cons s q1 => cases s <;> simp [agreeOutside] at h
  | text t rest ih =>
    cases q with
    | nil => simp [agreeOutside] at h
    | cons s q1 =>
      cases s with
      | down => simp [agreeOutside] at h
      | next =>
        cases d2 with
        | nil => simp [agreeOutside] at h
        | element j c2 r2 => simp [agreeOutside] at h
        | text t2 r2 =>
          simp only [agreeOutside, Bool.and_eq_true, decide_eq_true_eq] at h
          simp [replaceChildren, h.1, ih q1 r2 h.2]
  | element i c rest ihc ihr =>
    cases d2 with
    | nil => cases q with
      | nil => simp [agreeOutside] at h
      | cons s q1 => cases s <;> simp [agreeOutside] at h
    | text t2 r2 => cases q with
      | nil => simp [agreeOutside] at h
      | cons s q1 => cases s <;> simp [agreeOutside] at h
    | element j c2 r2 =>
      cases q with
      | nil =>
        simp only [agreeOutside, Bool.and_eq_true, decide_eq_true_eq] at h
        simp [replaceChildren, h.1, h.2]
      | cons s q1 =>
        cases s with
        | down =>
          simp only [agreeOutside, Bool.and_eq_true, decide_eq_true_eq] at h
          simp [replaceChildren, h.1.1, h.1.2, ihc q1 c2 h.2]
        | next =>
          simp only [agreeOutside, Bool.and_eq_true, decide_eq_true_eq] at h
          simp [replaceChildren, h.1.1, h.1.2, ihr q1 r2 h.2]

theorem firstWithId_agreeOutside (a : String) (q : Ref) (d1 d2 : Nodes)
    (hq : firstWithId d1 a = some q) (h : agreeOutside q d1 d2 = true) :
    firstWithId d2 a = some q := by
  induction d1 generalizing q d2 with
  | nil => cases hq
  | text t rest ih =>
    cases hr : firstWithId rest a with
    | none => simp [firstWithId, hr] at hq
    | some q1 =>
      have hq1 : q = Step.next :: q1 := by simpa [firstWithId, hr] using hq.symm
      subst hq1
      cases d2 with
      | nil => simp [agreeOutside] at h
      | element j c2 r2 => simp [agreeOutside] at h
      | text t2 r2 =>
        simp only [agreeOutside, Bool.and_eq_true, decide_eq_true_eq] at h
        simp [firstWithId, ih q1 r2 hr h.2]
  | element i c rest ihc ihr =>
    cases d2 with
    | nil => cases q with
      | nil => simp [agreeOutside] at h
      | cons s q1 => cases s <;> simp [agreeOutside] at h
    | text t2 r2 => cases q with
      | nil => simp [agreeOutside] at h
      | cons s q1 => cases s <;> simp [agreeOutside] at h
    | element j c2 r2 =>
      by_cases hi : i = a
      · subst hi
        have hq0 : q = [] := by simpa [firstWithId] using hq.symm
        subst hq0
        simp only [agreeOutside, Bool.and_eq_true, decide_eq_true_eq] at h
        simp [firstWithId, ← h.1]
      · cases hc : firstWithId c a with
        | some q1 =>
          have hq1 : q = Step.down :: q1 := by simpa [firstWithId, hi, hc] using hq.symm
          subst hq1
          simp only [agreeOutside, Bool.and_eq_true, decide_eq_true_eq] at h
          have hj : j ≠ a := by rw [← h.1.1]; exact hi
          simp [firstWithId, hj, ihc q1 c2 hc h.2]
        | none =>
          cases hr : firstWithId rest a with
          | none => simp [firstWithId, hi, hc, hr] at hq
          | some q1 =>
            have hq1 : q = Step.next :: q1 := by
              simpa [firstWithId, hi, hc, hr] using hq.symm
            subst hq1
            simp only [agreeOutside, Bool.and_eq_true, decide_eq_true_eq] at h
            have hj : j ≠ a := by rw [← h.1.1]; exact hi
            simp [firstWithId, hj, ← h.1.2, hc, ihr q1 r2 hr h.2]

/-! ## Facts about the script -/

theorem getElementById_of_ne (doc : Document) (id : String) (h : id ≠ "") :
    getElementById doc id = firstWithId doc id := by
  simp [getElementById, h]

theorem textOf_of_ne (doc : Document) (id : String) (h : id ≠ "") :
    textOf doc id = textOfFirst doc id := by
  simp [textOf, textOfFirst, getElementById, h]

theorem updateClockDoc_eq (now : JSDate) (doc : Document) :
    updateClockDoc now doc =
      writeFirst "clock-display" ("Campus Time: " ++ now.toLocaleTimeString) doc := by
  simp [updateClockDoc, writeFirst, getElementById]

theorem yearStepDoc_eq (now : JSDate) (doc : Document) :
    yearStepDoc now doc = writeFirst "year" (numberToString now.getFullYear) doc := by
  simp [yearStepDoc, writeFirst, getElementById]

/-- What `updateClock` does, by cases on the presence of the clock element. -/
theorem updateClock_eq (now : JSDate) (doc : Document) :
    updateClock now doc =
      match getElementById doc "clock-display" with
      | none => .ok doc
      | some r =>
        .ok (replaceChildren r (textNodes ("Campus Time: " ++ now.toLocaleTimeString)) doc) := by
  unfold updateClock
  cases h : getElementById doc "clock-display" <;> simp [truthy, setTextContent]

/-- What the year step does, by cases on the presence of the year element. -/
theorem yearStep_eq (now : JSDate) (w : World) :
    yearStep now w =
      match getElementById w.doc "year" with
      | none => .ok w
      | some r =>
        .ok { w with
          doc := replaceChildren r (textNodes (numberToString now.getFullYear)) w.doc } := by
  unfold yearStep
  cases h : getElementById w.doc "year" <;> simp [truthy, setTextContent]
  rfl

theorem updateClock_ok (now : JSDate) (doc : Document) :
    updateClock now doc = .ok (updateClockDoc now doc) := by
  rw [updateClock_eq, updateClockDoc]
  cases getElementById doc "clock-display" <;> rfl

theorem updateClockDoc_absent (now : JSDate) (doc : Document)
    (h : getElementById doc "clock-display" = none) : updateClockDoc now doc = doc := by
  simp [updateClockDoc, h]

theorem textOf_updateClockDoc_clock (now : JSDate) (doc : Document)
    (h : (getElementById doc "clock-display").isSome = true) :
    textOf (updateClockDoc now doc) "clock-display" =
      some ("Campus Time: " ++ now.toLocaleTimeString) := by
  rw [getElementById_of_ne doc _ (by decide)] at h
  rw [textOf_of_ne _ _ (by decide), updateClockDoc_eq]
  cases hc : firstWithId doc "clock-display" with
  | none => simp [hc] at h
  | some r => exact textOfFirst_writeFirst_self _ _ doc r hc

theorem updateClockDoc_updateClockDoc (now later : JSDate) (doc : Document) :
    updateClockDoc later (updateClockDoc now doc) = updateClockDoc later doc := by
  simp only [updateClockDoc_eq, writeFirst_writeFirst]

theorem invoke_ok (callback : Callback) (origin : Origin) (now : JSDate) (w : World) :
    invoke callback origin now w =
      .ok ⟨updateClockDoc now w.doc, w.intervals, w.log ++ [.call .updateClock origin]⟩ := by
  cases callback
  simp only [invoke, updateClock_ok]
  rfl

theorem clockSchedulingStep_ok (now : JSDate) (w : World) :
    clockSchedulingStep now w =
      .ok ⟨updateClockDoc now w.doc, w.intervals ++ [clockInterval],
        w.log ++ [.setInterval .updateClock 1000, .call .updateClock .direct]⟩ := by
  simp [clockSchedulingStep, invoke_ok, setInterval, clockInterval]

theorem yearStep_ok (now : JSDate) (w : World) :
    yearStep now w = .ok ⟨yearStepDoc now w.doc, w.intervals, w.log⟩ := by
  rw [yearStep_eq, yearStepDoc]
  cases getElementById w.doc "year" <;> rfl

theorem textOf_yearStepDoc_year (now : JSDate) (doc : Document)
    (h : (getElementById doc "year").isSome = true) :
    textOf (yearStepDoc now doc) "year" = some (numberToString now.getFullYear) := by
  rw [getElementById_of_ne doc _ (by decide)] at h
  rw [textOf_of_ne _ _ (by decide), yearStepDoc_eq]
  cases hc : firstWithId doc "year" with
  | none => simp [hc] at h
  | some r => exact textOfFirst_writeFirst_self _ _ doc r hc

theorem onDOMContentLoaded_ok (yearNow clockNow : JSDate) (w : World) :
    onDOMContentLoaded yearNow clockNow w =
      .ok ⟨updateClockDoc clockNow (yearStepDoc yearNow w.doc), w.intervals ++ [clockInterval],
        w.log ++ [.setInterval .updateClock 1000, .call .updateClock .direct]⟩ := by
  simp only [onDOMContentLoaded, yearStep_ok, clockSchedulingStep_ok]
  rfl

theorem tick_ok (now : JSDate) (w : World) (h : w.intervals = [clockInterval]) :
    tick now w =
      .ok ⟨updateClockDoc now w.doc, [clockInterval], w.log ++ [.call .updateClock .timer]⟩ := by
  simp only [tick, h, List.foldlM_cons, List.foldlM_nil, invoke_ok]
  rfl

theorem runTicks_ok (ticks : List JSDate) (w : World) (h : w.intervals = [clockInterval]) :
    runTicks ticks w =
      .ok ⟨ticksDoc ticks w.doc, [clockInterval],
        w.log ++ List.replicate ticks.length (.call .updateClock .timer)⟩ := by
  induction ticks generalizing w with
  | nil =>
    cases w
    simp only [runTicks, ticksDoc, List.length_nil, List.replicate_zero, List.append_nil]
    simp at h
    rw [h]
    rfl
  | cons now rest ih =>
    simp only [runTicks, tick_ok now w h]
    have := ih ⟨updateClockDoc now w.doc, [clockInterval],
      w.log ++ [.call .updateClock .timer]⟩ rfl
    simp only [bind, Except.bind]
    rw [this]
    simp [ticksDoc, List.replicate_succ]

theorem ticksDoc_absent (ticks : List JSDate) (doc : Document)
    (h : getElementById doc "clock-display" = none) : ticksDoc ticks doc = doc := by
  induction ticks with
  | nil => rfl
  | cons now rest ih => rw [ticksDoc, updateClockDoc_absent now doc h, ih]

/-- After one clock update, a run of ticks amounts to one clock update of the same
document. -/
theorem ticksDoc_updateClockDoc (ticks : List JSDate) (now : JSDate) (doc : Document) :
    ∃ last : JSDate, ticksDoc ticks (updateClockDoc now doc) = updateClockDoc last doc := by
  induction ticks generalizing now with
  | nil => exact ⟨now, rfl⟩
  | cons t rest ih =>
    obtain ⟨last, hl⟩ := ih t
    exact ⟨last, by rw [ticksDoc, updateClockDoc_updateClockDoc, hl]⟩

/-- The year text after the year step and one clock update, when the year element is not
inside the clock element. -/
theorem textOf_year_after_clock (yearNow now : JSDate) (doc : Document)
    (h : (getElementById doc "year").isSome = true)
    (hn : nestedIn doc "year" "clock-display" = false) :
    textOf (updateClockDoc now (yearStepDoc yearNow doc)) "year" =
      some (numberToString yearNow.getFullYear) := by
  rw [getElementById_of_ne doc _ (by decide)] at h
  rw [textOf_of_ne _ _ (by decide), updateClockDoc_eq, yearStepDoc_eq]
  cases hp : firstWithId doc "year" with
  | none => simp [hp] at h
  | some p =>
    apply textOfFirst_write_write "year" "clock-display" _ _ (by decide) doc p hp
    intro q hq
    simpa [nestedIn, getElementById, hp, hq] using hn

/-- The year text after the year step and one clock update does not depend on the clock
reading of the update. -/
theorem textOf_year_clock_indep (yearNow now later : JSDate) (doc : Document) :
    textOf (updateClockDoc later (yearStepDoc yearNow doc)) "year" =
      textOf (updateClockDoc now (yearStepDoc yearNow doc)) "year" := by
  simp only [textOf_of_ne _ _ (show "year" ≠ "" by decide), updateClockDoc_eq, yearStepDoc_eq]
  exact textOfFirst_write_indep "year" "clock-display" _ _ _ (by decide) doc

/-- The clock element is still found after the year step, when it is not inside the year
element. -/
theorem clock_found_after_yearStep (yearNow : JSDate) (doc : Document)
    (h : (getElementById doc "clock-display").isSome = true)
    (hn : nestedIn doc "clock-display" "year" = false) :
    (getElementById (yearStepDoc yearNow doc) "clock-display").isSome = true := by
  rw [getElementById_of_ne doc _ (by decide)] at h
  rw [getElementById_of_ne _ _ (by decide), yearStepDoc_eq]
  cases hq : firstWithId doc "clock-display" with
  | none => simp [hq] at h
  | some q =>
    rw [firstWithId_writeFirst_other "year" "clock-display" _ (by decide) doc q hq]
    · rfl
    · intro p hp
      simpa [nestedIn, getElementById, hp, hq] using hn

theorem foldlM_invoke_intervals (now : JSDate) (ts : List Interval) (w : World) :
    ∃ w', ts.foldlM (fun acc t => invoke t.callback .timer now acc) w = .ok w' ∧
      w'.intervals = w.intervals := by
  induction ts generalizing w with
  | nil => exact ⟨w, rfl, rfl⟩
  | cons t rest ih =>
    obtain ⟨w', hw', hi⟩ := ih ⟨updateClockDoc now w.doc, w.intervals,
      w.log ++ [.call .updateClock .timer]⟩
    refine ⟨w', ?_, hi⟩
    rw [List.foldlM_cons, invoke_ok]
    exact hw'

theorem filter_isSetInterval_replicate (n : Nat) (origin : Origin) :
    (List.replicate n (Event.call .updateClock origin)).filter isSetInterval = [] := by
  induction n with
  | zero => rfl
  | succ k ih => simp [List.replicate_succ, isSetInterval, ih]

theorem digitChar_isDigit (d : Nat) (h : d < 10) : (Nat.digitChar d).isDigit = true := by
  interval_cases d <;> decide

theorem toDigitsCore_four (f m : Nat) (h1 : 1000 ≤ m) (h2 : m ≤ 9999) :
    Nat.toDigitsCore 10 (f + 4) m [] =
      [Nat.digitChar (m / 1000 % 10), Nat.digitChar (m / 100 % 10),
        Nat.digitChar (m / 10 % 10), Nat.digitChar (m % 10)] := by
  have a1 : m / 10 ≠ 0 := by omega
  have a2 : m / 10 / 10 ≠ 0 := by omega
  have a3 : m / 10 / 10 / 10 ≠ 0 := by omega
  have a4 : m / 10 / 10 / 10 / 10 = 0 := by omega
  have e2 : m / 10 / 10 = m / 100 := by omega
  have e4 : m / 100 / 10 = m / 1000 := by omega
  simp only [Nat.toDigitsCore, a1, a2, a3, a4, if_true, if_false]
  simp only [e2, e4]

theorem repr_four (m : Nat) (h1 : 1000 ≤ m) (h2 : m ≤ 9999) :
    Nat.repr m =
      String.mk [Nat.digitChar (m / 1000 % 10), Nat.digitChar (m / 100 % 10),
        Nat.digitChar (m / 10 % 10), Nat.digitChar (m % 10)] := by
  obtain ⟨f, hf⟩ : ∃ f, m + 1 = f + 4 := ⟨m - 3, by omega⟩
  simp only [Nat.repr, Nat.toDigits, hf, toDigitsCore_four f m h1 h2, List.asString]

theorem isFourDigits_numberToString (n : Int) (h1 : 1000 ≤ n) (h2 : n ≤ 9999) :
    isFourDigits (numberToString n) = true := by
  obtain ⟨m, rfl⟩ : ∃ m : Nat, n = (m : Int) := ⟨n.toNat, by omega⟩
  have h1' : 1000 ≤ m := by omega
  have h2' : m ≤ 9999 := by omega
  have hs : numberToString (m : Int) = Nat.repr m := rfl
  rw [hs, repr_four m h1' h2']
  simp [isFourDigits, String.length, digitChar_isDigit, Nat.mod_lt]

/-! ## The claims -/

/-- Counterexample to C1 as stated: on a page whose `year` element lies inside the
`clock-display` element, the immediate clock update of the handler replaces the children of
the clock element, so after the handler no `year` element is found and it has no text. -/
theorem year_lost_inside_clock :
    (getElementById (pageLoad (.element "clock-display"
        (.element "year" (.text "y" .nil) .nil) .nil)).doc "year").isSome = true ∧
    ∃ w', onDOMContentLoaded ⟨2024, "9:05:03 AM"⟩ ⟨2024, "9:05:03 AM"⟩
        (pageLoad (.element "clock-display" (.element "year" (.text "y" .nil) .nil) .nil))
          = .ok w' ∧
      getElementById w'.doc "year" = none ∧ textOf w'.doc "year" = none :=
  ⟨by decide, _, rfl, by decide, by decide⟩

/-- C1, amended: when an element with id `year` exists and does not lie inside the
`clock-display` element, the `DOMContentLoaded` handler returns normally and afterwards the
text of the `year` element is the decimal string of the full year of the clock reading taken
by the year step, whatever the element held before. -/
theorem year_text_after_startup (yearNow clockNow : JSDate) (w : World)
    (h : (getElementById w.doc "year").isSome = true)
    (hn : nestedIn w.doc "year" "clock-display" = false) :
    ∃ w', onDOMContentLoaded yearNow clockNow w = .ok w' ∧
      textOf w'.doc "year" = some (numberToString yearNow.getFullYear) :=
  ⟨_, onDOMContentLoaded_ok yearNow clockNow w,
    textOf_year_after_clock yearNow clockNow w.doc h hn⟩

/-- Witness of C1: system year 2024, a footer holding a `year` element with other content
and a `clock-display` element: the year text becomes `"2024"`. -/
theorem year_text_after_startup_witness :
    (getElementById (pageLoad (.element "footer" (.text "(c) "
        (.element "year" (.element "" (.text "1999" .nil) .nil)
          (.text " Campus " (.element "clock-display" .nil .nil)))) .nil)).doc
        "year").isSome = true ∧
    nestedIn (pageLoad (.element "footer" (.text "(c) "
        (.element "year" (.element "" (.text "1999" .nil) .nil)
          (.text " Campus " (.element "clock-display" .nil .nil)))) .nil)).doc
        "year" "clock-display" = false ∧
    ∃ w', onDOMContentLoaded ⟨2024, "9:05:03 AM"⟩ ⟨2024, "9:05:03 AM"⟩
        (pageLoad (.element "footer" (.text "(c) "
          (.element "year" (.element "" (.text "1999" .nil) .nil)
            (.text " Campus " (.element "clock-display" .nil .nil)))) .nil)) = .ok w' ∧
      textOf w'.doc "year" = some "2024" :=
  ⟨by decide, by decide, year_text_after_startup ⟨2024, "9:05:03 AM"⟩ ⟨2024, "9:05:03 AM"⟩
    (pageLoad (.element "footer" (.text "(c) "
      (.element "year" (.element "" (.text "1999" .nil) .nil)
        (.text " Campus " (.element "clock-display" .nil .nil)))) .nil))
    (by decide) (by decide)⟩

/-- C2: when an element with id `clock-display` exists, one call of `updateClock` returns
normally and sets the text of that element to exactly `"Campus Time: "` followed by the
locale time string of the clock reading of that call; in particular the text starts with
`"Campus Time: "`. -/
theorem updateClock_sets_clock_text (now : JSDate) (doc : Document)
    (h : (getElementById doc "clock-display").isSome = true) :
    ∃ doc', updateClock now doc = .ok doc' ∧
      textOf doc' "clock-display" = some ("Campus Time: " ++ now.toLocaleTimeString) ∧
      ∃ t, textOf doc' "clock-display" = some t ∧ "Campus Time: ".data <+: t.data := by
  have ht := textOf_updateClockDoc_clock now doc h
  refine ⟨_, updateClock_ok now doc, ht, _, ht, ?_⟩
  rw [String.data_append]
  exact List.prefix_append _ _

/-- Witness of C2: the formatter output `"9:05:03 AM"` gives `"Campus Time: 9:05:03 AM"`, on
a page whose clock element sits inside another element and has an element child. -/
theorem updateClock_sets_clock_text_witness :
    (getElementById (.element "year" (.text "2024" .nil) (.element "header"
        (.element "clock-display" (.element "b" (.text "old" .nil) .nil) .nil) .nil))
        "clock-display").isSome = true ∧
    ∃ doc', updateClock ⟨2024, "9:05:03 AM"⟩
        (.element "year" (.text "2024" .nil) (.element "header"
          (.element "clock-display" (.element "b" (.text "old" .nil) .nil) .nil) .nil))
        = .ok doc' ∧
      textOf doc' "clock-display" = some "Campus Time: 9:05:03 AM" ∧
      ∃ t, textOf doc' "clock-display" = some t ∧ "Campus Time: ".data <+: t.data :=
  ⟨by decide, updateClock_sets_clock_text ⟨2024, "9:05:03 AM"⟩
    (.element "year" (.text "2024" .nil) (.element "header"
      (.element "clock-display" (.element "b" (.text "old" .nil) .nil) .nil) .nil))
    (by decide)⟩

/-- Counterexample to C3 as stated: on a page whose `clock-display` element lies inside the
`year` element, the year step removes the clock element before `updateClock` runs, so the
clock element existed at startup and yet no clock text is set when the handler returns. -/
theorem clock_lost_inside_year :
    (getElementById (.element "year" (.text "x"
        (.element "clock-display" (.text "c" .nil) .nil)) .nil) "clock-display").isSome = true ∧
    ∃ w', onDOMContentLoaded ⟨2024, "9:05:03 AM"⟩ ⟨2024, "9:05:03 AM"⟩
        (pageLoad (.element "year" (.text "x"
          (.element "clock-display" (.text "c" .nil) .nil)) .nil)) = .ok w' ∧
      w'.doc = .element "year" (.text "2024" .nil) .nil ∧
      textOf w'.doc "clock-display" = none :=
  ⟨by decide, _, rfl, by decide, by decide⟩

/-- C3, amended: run on a freshly loaded page, the handler returns normally having registered
exactly one repeating timer (callback `updateClock`, period 1000 ms) and having invoked
`updateClock` exactly once itself: its log is the registration followed by the one direct
call. When the clock element exists and does not lie inside the `year` element, its text is
`"Campus Time: "` plus the formatted time on return. Every timer-driven invocation comes
after: a run of ticks only appends timer-driven calls. -/
theorem startup_scheduling (yearNow clockNow : JSDate) (doc : Document) :
    ∃ w', onDOMContentLoaded yearNow clockNow (pageLoad doc) = .ok w' ∧
      w'.intervals = [⟨.updateClock, 1000⟩] ∧
      w'.log = [.setInterval .updateClock 1000, .call .updateClock .direct] ∧
      ((getElementById doc "clock-display").isSome = true →
        nestedIn doc "clock-display" "year" = false →
        textOf w'.doc "clock-display" = some ("Campus Time: " ++ clockNow.toLocaleTimeString)) ∧
      ∀ ticks : List JSDate, ∃ w2, runTicks ticks w' = .ok w2 ∧
        w2.log = w'.log ++ List.replicate ticks.length (.call .updateClock .timer) := by
  refine ⟨_, onDOMContentLoaded_ok yearNow clockNow (pageLoad doc), rfl, rfl, ?_, ?_⟩
  · intro h hn
    exact textOf_updateClockDoc_clock clockNow _ (clock_found_after_yearStep yearNow doc h hn)
  · intro ticks
    exact ⟨_, runTicks_ok ticks _ rfl, rfl⟩

/-- Witness of C3: a page with a year element followed by a clock element, started at
9:05:03 AM. -/
theorem startup_scheduling_witness :
    (getElementById (.element "year" .nil (.element "clock-display" .nil .nil))
      "clock-display").isSome = true ∧
    nestedIn (.element "year" .nil (.element "clock-display" .nil .nil))
      "clock-display" "year" = false ∧
    ∃ w', onDOMContentLoaded ⟨2024, "9:05:03 AM"⟩ ⟨2024, "9:05:03 AM"⟩
        (pageLoad (.element "year" .nil (.element "clock-display" .nil .nil))) = .ok w' ∧
      w'.intervals = [⟨.updateClock, 1000⟩] ∧
      w'.log = [.setInterval .updateClock 1000, .call .updateClock .direct] ∧
      textOf w'.doc "clock-display" = some "Campus Time: 9:05:03 AM" :=
  ⟨by decide, by decide,
    (startup_scheduling ⟨2024, "9:05:03 AM"⟩ ⟨2024, "9:05:03 AM"⟩
      (.element "year" .nil (.element "clock-display" .nil .nil))).elim
      (fun w' hw => ⟨w', hw.1, hw.2.1, hw.2.2.1, hw.2.2.2.1 (by decide) (by decide)⟩)⟩

/-- C4: when no element has id `clock-display`, a call of `updateClock` returns normally and
leaves the whole document unchanged. -/
theorem updateClock_without_clock (now : JSDate) (doc : Document)
    (h : getElementById doc "clock-display" = none) : updateClock now doc = .ok doc := by
  rw [updateClock_ok, updateClockDoc_absent now doc h]

/-- Witness of C4: a page with only a footer holding a year element. -/
theorem updateClock_without_clock_witness :
    getElementById (.element "footer" (.element "year" (.text "2024" .nil) .nil) .nil)
      "clock-display" = none ∧
    updateClock ⟨2024, "9:05:03 AM"⟩
        (.element "footer" (.element "year" (.text "2024" .nil) .nil) .nil) =
      .ok (.element "footer" (.element "year" (.text "2024" .nil) .nil) .nil) :=
  ⟨by decide, updateClock_without_clock ⟨2024, "9:05:03 AM"⟩
    (.element "footer" (.element "year" (.text "2024" .nil) .nil) .nil) (by decide)⟩

/-- C5: when no element has id `year`, the year step returns normally and changes nothing,
and the handler is the clock and scheduling part alone: it returns normally with the timer
registered and the immediate clock update done. -/
theorem startup_without_year (yearNow clockNow : JSDate) (w : World)
    (h : getElementById w.doc "year" = none) :
    yearStep yearNow w = .ok w ∧
    onDOMContentLoaded yearNow clockNow w = clockSchedulingStep clockNow w ∧
    onDOMContentLoaded yearNow clockNow w =
      .ok ⟨updateClockDoc clockNow w.doc, w.intervals ++ [clockInterval],
        w.log ++ [.setInterval .updateClock 1000, .call .updateClock .direct]⟩ ∧
    updateClock clockNow w.doc = .ok (updateClockDoc clockNow w.doc) := by
  have hy : yearStep yearNow w = .ok w := by
    rw [yearStep_eq, h]
  refine ⟨hy, ?_, ?_, updateClock_ok clockNow w.doc⟩
  · simp only [onDOMContentLoaded, hy]
    rfl
  · rw [onDOMContentLoaded_ok, yearStepDoc, h]

/-- Witness of C5: a page with a clock element and no year element. -/
theorem startup_without_year_witness :
    getElementById (pageLoad (.element "clock-display" .nil .nil)).doc "year" = none ∧
    onDOMContentLoaded ⟨2024, "9:05:03 AM"⟩ ⟨2024, "9:05:04 AM"⟩
        (pageLoad (.element "clock-display" .nil .nil)) =
      .ok ⟨.element "clock-display" (.text "Campus Time: 9:05:04 AM" .nil) .nil,
        [clockInterval], [.setInterval .updateClock 1000, .call .updateClock .direct]⟩ :=
  ⟨by decide, (startup_without_year ⟨2024, "9:05:03 AM"⟩ ⟨2024, "9:05:04 AM"⟩
    (pageLoad (.element "clock-display" .nil .nil)) (by decide)).2.2.1⟩

/-- C6: on a page with neither a `year` nor a `clock-display` element, the handler followed
by any run of timer ticks returns normally, the document is the one before startup, and the
timer registered by the handler is still the registered timer. -/
theorem no_targets_no_effect (yearNow clockNow : JSDate) (ticks : List JSDate)
    (doc : Document) (hy : getElementById doc "year" = none)
    (hc : getElementById doc "clock-display" = none) :
    onDOMContentLoaded yearNow clockNow (pageLoad doc) =
      .ok ⟨doc, [clockInterval], [.setInterval .updateClock 1000, .call .updateClock .direct]⟩ ∧
    runPage yearNow clockNow ticks doc =
      .ok ⟨doc, [clockInterval],
        [.setInterval .updateClock 1000, .call .updateClock .direct] ++
          List.replicate ticks.length (.call .updateClock .timer)⟩ := by
  have h0 : onDOMContentLoaded yearNow clockNow (pageLoad doc) =
      .ok ⟨doc, [clockInterval],
        [.setInterval .updateClock 1000, .call .updateClock .direct]⟩ := by
    rw [onDOMContentLoaded_ok]
    simp only [pageLoad, yearStepDoc, hy, updateClockDoc_absent clockNow doc hc]
    rfl
  refine ⟨h0, ?_⟩
  simp only [runPage, h0]
  show runTicks ticks _ = _
  rw [runTicks_ok ticks _ rfl, ticksDoc_absent ticks doc hc]

/-- Witness of C6: a page with one unrelated element, three ticks. -/
theorem no_targets_no_effect_witness :
    getElementById (.element "title" (.text "Campus" .nil) .nil) "year" = none ∧
    getElementById (.element "title" (.text "Campus" .nil) .nil) "clock-display" = none ∧
    runPage ⟨2024, "9:05:03 AM"⟩ ⟨2024, "9:05:03 AM"⟩
        [⟨2024, "9:05:04 AM"⟩, ⟨2024, "9:05:05 AM"⟩, ⟨2025, "9:05:06 AM"⟩]
        (.element "title" (.text "Campus" .nil) .nil) =
      .ok ⟨.element "title" (.text "Campus" .nil) .nil, [clockInterval],
        [.setInterval .updateClock 1000, .call .updateClock .direct,
          .call .updateClock .timer, .call .updateClock .timer, .call .updateClock .timer]⟩ :=
  ⟨by decide, by decide, (no_targets_no_effect ⟨2024, "9:05:03 AM"⟩ ⟨2024, "9:05:03 AM"⟩
    [⟨2024, "9:05:04 AM"⟩, ⟨2024, "9:05:05 AM"⟩, ⟨2025, "9:05:06 AM"⟩]
    (.element "title" (.text "Campus" .nil) .nil) (by decide) (by decide)).2⟩

/-- Counterexample to C7 as stated: on a page whose `year` element lies inside the
`clock-display` element, the year element exists at startup, and after startup and two ticks
no `year` element is left, so its text is not the year written by the handler. -/
theorem year_text_gone_after_ticks :
    (getElementById (.element "clock-display"
        (.element "year" (.text "y" .nil) .nil) .nil) "year").isSome = true ∧
    ∃ w, runPage ⟨2024, "11:59:59 PM"⟩ ⟨2024, "11:59:59 PM"⟩
        [⟨2025, "12:00:00 AM"⟩, ⟨2025, "12:00:01 AM"⟩]
        (.element "clock-display" (.element "year" (.text "y" .nil) .nil) .nil) = .ok w ∧
      w.doc = .element "clock-display" (.text "Campus Time: 12:00:01 AM" .nil) .nil ∧
      textOf w.doc "year" = none :=
  ⟨by decide, _, rfl, by decide, by decide⟩

/-- C7, amended: after startup and any run of timer ticks, whatever the clock reads at each
tick, the text of the `year` element is the one it had when the handler returned; when the
year element exists and does not lie inside the `clock-display` element, that text is the
year read at startup. -/
theorem year_text_set_once (yearNow clockNow : JSDate) (ticks : List JSDate)
    (doc : Document) :
    ∃ w0 w, onDOMContentLoaded yearNow clockNow (pageLoad doc) = .ok w0 ∧
      runTicks ticks w0 = .ok w ∧
      textOf w.doc "year" = textOf w0.doc "year" ∧
      ((getElementById doc "year").isSome = true →
        nestedIn doc "year" "clock-display" = false →
        textOf w.doc "year" = some (numberToString yearNow.getFullYear)) := by
  obtain ⟨last, hl⟩ := ticksDoc_updateClockDoc ticks clockNow (yearStepDoc yearNow doc)
  refine ⟨_, _, onDOMContentLoaded_ok yearNow clockNow (pageLoad doc),
    runTicks_ok ticks _ rfl, ?_, ?_⟩
  · show textOf (ticksDoc ticks (updateClockDoc clockNow (yearStepDoc yearNow doc))) "year" =
      textOf (updateClockDoc clockNow (yearStepDoc yearNow doc)) "year"
    rw [hl]
    exact textOf_year_clock_indep yearNow clockNow last doc
  · intro h hn
    show textOf (ticksDoc ticks (updateClockDoc clockNow (yearStepDoc yearNow doc))) "year" = _
    rw [hl]
    exact textOf_year_after_clock yearNow last doc h hn

/-- Witness of C7: startup in 2024 on a page whose year element holds the clock element,
then two ticks whose clock reads 2025. -/
theorem year_text_set_once_witness :
    (getElementById (.element "year" (.text "x"
        (.element "clock-display" .nil .nil)) (.element "clock-display" .nil .nil))
      "year").isSome = true ∧
    nestedIn (.element "year" (.text "x"
        (.element "clock-display" .nil .nil)) (.element "clock-display" .nil .nil))
      "year" "clock-display" = false ∧
    ∃ w0 w, onDOMContentLoaded ⟨2024, "11:59:59 PM"⟩ ⟨2024, "11:59:59 PM"⟩
        (pageLoad (.element "year" (.text "x"
          (.element "clock-display" .nil .nil)) (.element "clock-display" .nil .nil)))
          = .ok w0 ∧
      runTicks [⟨2025, "12:00:00 AM"⟩, ⟨2025, "12:00:01 AM"⟩] w0 = .ok w ∧
      textOf w.doc "year" = textOf w0.doc "year" ∧
      textOf w.doc "year" = some "2024" :=
  ⟨by decide, by decide,
    (year_text_set_once ⟨2024, "11:59:59 PM"⟩ ⟨2024, "11:59:59 PM"⟩
      [⟨2025, "12:00:00 AM"⟩, ⟨2025, "12:00:01 AM"⟩]
      (.element "year" (.text "x"
        (.element "clock-display" .nil .nil)) (.element "clock-display" .nil .nil))).elim
      (fun w0 h0 => h0.elim (fun w hw =>
        ⟨w0, w, hw.1, hw.2.1, hw.2.2.1, hw.2.2.2 (by decide) (by decide)⟩))⟩

/-- C8: after startup and any run of timer ticks the registered timers are exactly the one
1000 ms `updateClock` timer of the handler, and the log holds exactly one registration. No
step removes or replaces a timer: an invocation of `updateClock` and a tick leave the
registered timers as they are, and the handler only appends its one timer. -/
theorem timer_never_cancelled (yearNow clockNow : JSDate) (ticks : List JSDate)
    (doc : Document) :
    (∃ w, runPage yearNow clockNow ticks doc = .ok w ∧
      w.intervals = [⟨.updateClock, 1000⟩] ∧
      w.log.filter isSetInterval = [.setInterval .updateClock 1000]) ∧
    (∀ (callback : Callback) (origin : Origin) (now : JSDate) (w : World),
      ∃ w', invoke callback origin now w = .ok w' ∧ w'.intervals = w.intervals) ∧
    (∀ (now : JSDate) (w : World), ∃ w', tick now w = .ok w' ∧ w'.intervals = w.intervals) ∧
    ∀ (w : World), ∃ w', onDOMContentLoaded yearNow clockNow w = .ok w' ∧
      w'.intervals = w.intervals ++ [⟨.updateClock, 1000⟩] := by
  refine ⟨?_, ?_, ?_, ?_⟩
  · refine ⟨⟨ticksDoc ticks (updateClockDoc clockNow (yearStepDoc yearNow doc)),
      [clockInterval], [.setInterval .updateClock 1000, .call .updateClock .direct] ++
        List.replicate ticks.length (.call .updateClock .timer)⟩, ?_, rfl, ?_⟩
    · simp only [runPage, onDOMContentLoaded_ok]
      show runTicks ticks _ = _
      rw [runTicks_ok ticks _ rfl]
      rfl
    · rw [List.filter_append, filter_isSetInterval_replicate]
      rfl
  · intro callback origin now w
    exact ⟨_, invoke_ok callback origin now w, rfl⟩
  · intro now w
    exact foldlM_invoke_intervals now w.intervals w
  · intro w
    exact ⟨_, onDOMContentLoaded_ok yearNow clockNow w, rfl⟩

/-- Counterexample to C9 as stated: with the system clock in year 10000 the text written to
the `year` element is `"10000"`, five digits. -/
theorem year_text_five_digits :
    ∃ w', onDOMContentLoaded ⟨10000, "12:00:00 AM"⟩ ⟨10000, "12:00:00 AM"⟩
        (pageLoad (.element "year" .nil .nil)) = .ok w' ∧
      textOf w'.doc "year" = some "10000" ∧ isFourDigits "10000" = false :=
  ⟨_, rfl, by decide, by decide⟩

/-- C9, amended: when the year element exists and the full year read from the clock lies
between 1000 and 9999, the text written at startup is a string of exactly four decimal
digits: it is the text of the year element right after the year step, the handler returns
normally, and it is still the text of the year element when the handler returns unless the
year element lies inside the `clock-display` element. -/
theorem year_text_four_digits (yearNow clockNow : JSDate) (w : World)
    (h : (getElementById w.doc "year").isSome = true)
    (hlo : 1000 ≤ yearNow.getFullYear) (hhi : yearNow.getFullYear ≤ 9999) :
    (∃ w1 w' t, yearStep yearNow w = .ok w1 ∧ onDOMContentLoaded yearNow clockNow w = .ok w' ∧
      textOf w1.doc "year" = some t ∧ isFourDigits t = true) ∧
    (nestedIn w.doc "year" "clock-display" = false →
      ∃ w' t, onDOMContentLoaded yearNow clockNow w = .ok w' ∧
        textOf w'.doc "year" = some t ∧ isFourDigits t = true) := by
  have h4 := isFourDigits_numberToString yearNow.getFullYear hlo hhi
  constructor
  · exact ⟨_, _, _, yearStep_ok yearNow w, onDOMContentLoaded_ok yearNow clockNow w,
      textOf_yearStepDoc_year yearNow w.doc h, h4⟩
  · intro hn
    exact ⟨_, _, onDOMContentLoaded_ok yearNow clockNow w,
      textOf_year_after_clock yearNow clockNow w.doc h hn, h4⟩

/-- Witness of the amended C9: system year 2024, a year element next to a clock element. -/
theorem year_text_four_digits_witness :
    (getElementById (pageLoad (.element "year" (.text "old" .nil)
      (.element "clock-display" .nil .nil))).doc "year").isSome = true ∧
    (1000 : Int) ≤ (⟨2024, "9:05:03 AM"⟩ : JSDate).getFullYear ∧
    (⟨2024, "9:05:03 AM"⟩ : JSDate).getFullYear ≤ 9999 ∧
    nestedIn (pageLoad (.element "year" (.text "old" .nil)
      (.element "clock-display" .nil .nil))).doc "year" "clock-display" = false ∧
    ∃ w' t, onDOMContentLoaded ⟨2024, "9:05:03 AM"⟩ ⟨2024, "9:05:03 AM"⟩
        (pageLoad (.element "year" (.text "old" .nil)
          (.element "clock-display" .nil .nil))) = .ok w' ∧
      textOf w'.doc "year" = some t ∧ isFourDigits t = true :=
  ⟨by decide, by decide, by decide, by decide,
    (year_text_four_digits ⟨2024, "9:05:03 AM"⟩ ⟨2024, "9:05:03 AM"⟩
      (pageLoad (.element "year" (.text "old" .nil) (.element "clock-display" .nil .nil)))
      (by decide) (by decide) (by decide)).2 (by decide)⟩

/-- Counterexample to C10 as stated: on a page whose footer holds the year and the clock
element, `updateClock` changes the text of the footer, an element other than
`clock-display`. -/
theorem footer_text_changes :
    ∃ doc', updateClock ⟨2024, "9:05:03 AM"⟩
        (.element "footer" (.text "(c) " (.element "year" (.text "2024" .nil)
          (.text " Campus " (.element "clock-display" (.text "old" .nil) .nil)))) .nil)
        = .ok doc' ∧
      textOf (.element "footer" (.text "(c) " (.element "year" (.text "2024" .nil)
          (.text " Campus " (.element "clock-display" (.text "old" .nil) .nil)))) .nil)
        "footer" = some "(c) 2024 Campus old" ∧
      textOf doc' "footer" = some "(c) 2024 Campus Campus Time: 9:05:03 AM" :=
  ⟨_, rfl, by decide, by decide⟩

/-- C10, amended: `updateClock` overwrites. Its result does not depend on what the clock
element held before (two documents that differ only inside the clock element give the same
result); when the clock element exists its text afterwards is the new text;
every element that is not the clock element, does not contain it and is not contained in it
keeps its id and its children, hence its text; and a second call with the same clock reading
returns the same document as the first. -/
theorem updateClock_overwrites (now : JSDate) (doc : Document) :
    (∀ (q : Ref) (other : Document), getElementById doc "clock-display" = some q →
      agreeOutside q doc other = true → updateClock now other = updateClock now doc) ∧
    ∃ doc', updateClock now doc = .ok doc' ∧
      ((getElementById doc "clock-display").isSome = true →
        textOf doc' "clock-display" = some ("Campus Time: " ++ now.toLocaleTimeString)) ∧
      (getElementById doc "clock-display" = none → doc' = doc) ∧
      (∀ q r : Ref, getElementById doc "clock-display" = some q →
        r ≠ q → inside r q = false → inside q r = false →
        idAt r doc' = idAt r doc ∧ childrenAt r doc' = childrenAt r doc ∧
          textContentAt r doc' = textContentAt r doc) ∧
      updateClock now doc' = .ok doc' ∧
      (updateClock now doc >>= updateClock now) = updateClock now doc := by
  refine ⟨?_, updateClockDoc now doc, updateClock_ok now doc, ?_,
    updateClockDoc_absent now doc, ?_, ?_, ?_⟩
  · intro q other hq hag
    have hq1 : firstWithId doc "clock-display" = some q := by
      rw [← getElementById_of_ne doc _ (by decide)]
      exact hq
    have hq2 : getElementById other "clock-display" = some q := by
      rw [getElementById_of_ne _ _ (by decide)]
      exact firstWithId_agreeOutside _ q doc other hq1 hag
    rw [updateClock_ok, updateClock_ok]
    simp only [updateClockDoc, hq, hq2]
    rw [replaceChildren_agreeOutside q _ doc other hag]
  · exact textOf_updateClockDoc_clock now doc
  · intro q r hq hne h1 h2
    have hdoc : updateClockDoc now doc =
        replaceChildren q (textNodes ("Campus Time: " ++ now.toLocaleTimeString)) doc := by
      simp only [updateClockDoc, hq]
    have hf := frame_replaceChildren q r
      (textNodes ("Campus Time: " ++ now.toLocaleTimeString)) doc hne h1 h2
    rw [hdoc]
    exact ⟨hf.1, hf.2, by rw [textContentAt, textContentAt, hf.2]⟩
  · rw [updateClock_ok, updateClockDoc_updateClockDoc]
  · rw [updateClock_ok]
    show updateClock now (updateClockDoc now doc) = _
    rw [updateClock_ok, updateClockDoc_updateClockDoc]

/-- Witness of C10: a footer page, and the same page whose clock element held an element
with stale text. -/
theorem updateClock_overwrites_witness :
    getElementById (.element "footer" (.element "year" (.text "2024" .nil)
        (.element "clock-display" .nil .nil)) .nil) "clock-display"
      = some [Step.down, Step.next] ∧
    agreeOutside [Step.down, Step.next]
      (.element "footer" (.element "year" (.text "2024" .nil)
        (.element "clock-display" .nil .nil)) .nil)
      (.element "footer" (.element "year" (.text "2024" .nil)
        (.element "clock-display" (.element "b" (.text "stale" .nil) .nil) .nil)) .nil)
      = true ∧
    updateClock ⟨2024, "9:05:03 AM"⟩
        (.element "footer" (.element "year" (.text "2024" .nil)
          (.element "clock-display" (.element "b" (.text "stale" .nil) .nil) .nil)) .nil) =
      updateClock ⟨2024, "9:05:03 AM"⟩
        (.element "footer" (.element "year" (.text "2024" .nil)
          (.element "clock-display" .nil .nil)) .nil) :=
  ⟨by decide, by decide, (updateClock_overwrites ⟨2024, "9:05:03 AM"⟩
    (.element "footer" (.element "year" (.text "2024" .nil)
      (.element "clock-display" .nil .nil)) .nil)).1 [Step.down, Step.next]
    (.element "footer" (.element "year" (.text "2024" .nil)
      (.element "clock-display" (.element "b" (.text "stale" .nil) .nil) .nil)) .nil)
    (by decide) (by decide)⟩

end DisplayUpdater
